import Mathlib

/-!
Shallow embedding of the Black-Scholes pricing engine (`src/core/bs_calculator.py`)
and the portfolio aggregator (`src/core/portfolio_analyzer.py`), together with
proofs of the specification's claims about them.

Machine floats are modelled by real numbers; `scipy.stats.norm.cdf` is modelled
by the cumulative distribution function of the standard normal distribution
(the integral of Mathlib's `gaussianPDFReal 0 1`), and `norm.pdf` by that
density itself.  Calendar dates are modelled at day granularity by integers
(day numbers), matching the code's use of whole-day differences
(`(expiration - date).days`).
-/

open MeasureTheory

namespace BSModel

/-- Embeds `scipy.stats.norm.pdf`: the standard normal density. -/
noncomputable def normPdf (x : ℝ) : ℝ := ProbabilityTheory.gaussianPDFReal 0 1 x

/-- Embeds `scipy.stats.norm.cdf`: the standard normal cumulative distribution function. -/
noncomputable def normCdf (x : ℝ) : ℝ := ∫ t in Set.Iic x, ProbabilityTheory.gaussianPDFReal 0 1 t

lemma gaussianPDFReal_std_neg (t : ℝ) :
    ProbabilityTheory.gaussianPDFReal 0 1 (-t) = ProbabilityTheory.gaussianPDFReal 0 1 t := by
  simp [ProbabilityTheory.gaussianPDFReal, neg_sq]

/-- The symmetry identity `Φ(x) + Φ(-x) = 1` for the standard normal CDF. -/
lemma normCdf_add_normCdf_neg (x : ℝ) : normCdf x + normCdf (-x) = 1 := by
  have hint : Integrable (ProbabilityTheory.gaussianPDFReal 0 1) :=
    ProbabilityTheory.integrable_gaussianPDFReal 0 1
  have h2 : normCdf (-x) = ∫ t in Set.Ioi x, ProbabilityTheory.gaussianPDFReal 0 1 t := by
    unfold normCdf
    have heven : (∫ t in Set.Iic (-x), ProbabilityTheory.gaussianPDFReal 0 1 t)
        = ∫ t in Set.Iic (-x), ProbabilityTheory.gaussianPDFReal 0 1 (-t) := by
      refine setIntegral_congr_fun measurableSet_Iic ?_
      intro t _
      exact (gaussianPDFReal_std_neg t).symm
    rw [heven, integral_comp_neg_Iic, neg_neg]
  rw [h2]
  unfold normCdf
  rw [intervalIntegral.integral_Iic_add_Ioi hint.integrableOn hint.integrableOn]
  exact ProbabilityTheory.integral_gaussianPDFReal_eq_one 0 one_ne_zero

/-- Embeds `BSCalculator._calculate_d1_d2`: clamps `T` and `sigma` to at least `1e-10`,
then computes `d1 = (log(S/K) + (r + sigma^2/2) T) / (sigma sqrt T)` and
`d2 = d1 - sigma sqrt T`. -/
noncomputable def calculate_d1_d2 (S K T sigma r : ℝ) : ℝ × ℝ :=
  let T' := max T 1e-10
  let sigma' := max sigma 1e-10
  let d1 := (Real.log (S / K) + (r + sigma' ^ 2 / 2) * T') / (sigma' * Real.sqrt T')
  let d2 := d1 - sigma' * Real.sqrt T'
  (d1, d2)

/-- ASCII case-lowering of one character, modelling Python `str.lower` on the
ASCII option-type strings the engine works with. -/
def lowerChar (c : Char) : Char :=
  if 65 ≤ c.toNat ∧ c.toNat ≤ 90 then Char.ofNat (c.toNat + 32) else c

/-- ASCII case-raising of one character, modelling Python `str.upper`. -/
def upperChar (c : Char) : Char :=
  if 97 ≤ c.toNat ∧ c.toNat ≤ 122 then Char.ofNat (c.toNat - 32) else c

/-- Python `s.lower()` (ASCII model). -/
def pyLower (s : String) : String := ⟨s.data.map lowerChar⟩

/-- Python `s.upper()` (ASCII model). -/
def pyUpper (s : String) : String := ⟨s.data.map upperChar⟩

/-- Tests `option_type.lower() == 'call' or option_type.upper() == 'C'`. -/
def isCallType (option_type : String) : Bool :=
  pyLower option_type == "call" || pyUpper option_type == "C"

/-- Embeds `BSCalculator.calculate_option_price`. -/
noncomputable def calculate_option_price (S K T sigma : ℝ) (option_type : String) (r : ℝ) : ℝ :=
  let d := calculate_d1_d2 S K T sigma r
  if isCallType option_type then
    S * normCdf d.1 - K * Real.exp (-r * T) * normCdf d.2
  else
    K * Real.exp (-r * T) * normCdf (-d.2) - S * normCdf (-d.1)

/-- Embeds `BSCalculator.calculate_delta`. -/
noncomputable def calculate_delta (S K T sigma : ℝ) (option_type : String) (r : ℝ) : ℝ :=
  let d := calculate_d1_d2 S K T sigma r
  if isCallType option_type then normCdf d.1 else normCdf d.1 - 1

/-- Embeds `BSCalculator.calculate_gamma` (re-clamps `T` and `sigma` after `d1`/`d2`). -/
noncomputable def calculate_gamma (S K T sigma r : ℝ) : ℝ :=
  let d := calculate_d1_d2 S K T sigma r
  let T' := max T 1e-10
  let sigma' := max sigma 1e-10
  normPdf d.1 / (S * sigma' * Real.sqrt T')

/-- Embeds `BSCalculator.calculate_theta` (re-clamps `T` after `d1`/`d2`; `sigma` is
used unclamped in the numerator, as in the source). -/
noncomputable def calculate_theta (S K T sigma : ℝ) (option_type : String) (r : ℝ) : ℝ :=
  let d := calculate_d1_d2 S K T sigma r
  let T' := max T 1e-10
  if isCallType option_type then
    -S * normPdf d.1 * sigma / (2 * Real.sqrt T') - r * K * Real.exp (-r * T') * normCdf d.2
  else
    -S * normPdf d.1 * sigma / (2 * Real.sqrt T') + r * K * Real.exp (-r * T') * normCdf (-d.2)

/-- Embeds `BSCalculator.calculate_vega` (re-clamps `T` after `d1`/`d2`). -/
noncomputable def calculate_vega (S K T sigma r : ℝ) : ℝ :=
  let d := calculate_d1_d2 S K T sigma r
  let T' := max T 1e-10
  S * Real.sqrt T' * normPdf d.1

/-- Embeds `BSCalculator.calculate_rho` (re-clamps `T` after `d1`/`d2`). -/
noncomputable def calculate_rho (S K T sigma : ℝ) (option_type : String) (r : ℝ) : ℝ :=
  let d := calculate_d1_d2 S K T sigma r
  let T' := max T 1e-10
  if isCallType option_type then
    K * T' * Real.exp (-r * T') * normCdf d.2
  else
    -K * T' * Real.exp (-r * T') * normCdf (-d.2)

/-- Embeds `BSCalculator.calculate_vanna` (re-clamps `S` and `sigma` after `d1`/`d2`;
the re-clamped `T` of the source does not occur in the formula). -/
noncomputable def calculate_vanna (S K T sigma r : ℝ) : ℝ :=
  let d := calculate_d1_d2 S K T sigma r
  let S' := max S 1e-10
  let sigma' := max sigma 1e-10
  Neg.neg (normPdf d.1) * d.2 / (S' * sigma')

/-- Embeds `BSCalculator.calculate_volga`: `vega * d1 * d2 / sigma` with the vega
computed from the unclamped arguments and `sigma` re-clamped in the divisor. -/
noncomputable def calculate_volga (S K T sigma r : ℝ) : ℝ :=
  let d := calculate_d1_d2 S K T sigma r
  let sigma' := max sigma 1e-10
  calculate_vega S K T sigma r * d.1 * d.2 / sigma'

end BSModel

namespace BSModel

/-- Embeds `BSCalculator.calculate_all_greeks` result dictionary (with
`include_second_order = True`, the default used by the portfolio analyzer). -/
structure GreeksResult where
  price : ℝ
  delta : ℝ
  gamma : ℝ
  theta : ℝ
  theta_daily : ℝ
  vega : ℝ
  vega_percent : ℝ
  rho : ℝ
  vanna : ℝ
  volga : ℝ

/-- Embeds `BSCalculator.calculate_all_greeks` with `include_second_order = True`. -/
noncomputable def calculate_all_greeks (S K T sigma : ℝ) (option_type : String) (r : ℝ) :
    GreeksResult :=
  let price := calculate_option_price S K T sigma option_type r
  let delta := calculate_delta S K T sigma option_type r
  let gamma := calculate_gamma S K T sigma r
  let theta := calculate_theta S K T sigma option_type r
  let vega := calculate_vega S K T sigma r
  let rho := calculate_rho S K T sigma option_type r
  { price := price, delta := delta, gamma := gamma, theta := theta,
    theta_daily := theta / 365, vega := vega, vega_percent := vega / 100,
    rho := rho, vanna := calculate_vanna S K T sigma r,
    volga := calculate_volga S K T sigma r }

/-- Embeds `Position`: one option leg.  Calendar dates are modelled as integer day
numbers; `optionType` is stored upper-cased, as `Position.__init__` does. -/
structure Position where
  expirationDay : ℤ
  strike : ℝ
  optionType : String
  quantity : ℤ
  volatility : ℝ
  entryPrice : Option ℝ

/-- Embeds `Position.__init__`: upper-cases the option type and defaults a missing
volatility to `1.0`. -/
noncomputable def mkPosition (expirationDay : ℤ) (strike : ℝ) (optionType : String) (quantity : ℤ)
    (volatility : Option ℝ) (entryPrice : Option ℝ) : Position :=
  { expirationDay := expirationDay, strike := strike, optionType := pyUpper optionType,
    quantity := quantity, volatility := volatility.getD 1.0, entryPrice := entryPrice }

/-- Embeds `Position.days_to_expiry`: `max((expiration - current_date).days, 0)`. -/
def daysToExpiry (pos : Position) (currentDay : ℤ) : ℤ :=
  max (pos.expirationDay - currentDay) 0

/-- Embeds `Position.time_to_maturity`: `days_to_expiry / 365.0`. -/
noncomputable def timeToMaturity (pos : Position) (currentDay : ℤ) : ℝ :=
  (daysToExpiry pos currentDay : ℝ) / 365

/-- Accumulator record for the eight running totals of
`PortfolioAnalyzer.calculate_portfolio_greeks`. -/
structure Totals where
  delta : ℝ
  gamma : ℝ
  theta : ℝ
  vega : ℝ
  rho : ℝ
  vanna : ℝ
  volga : ℝ
  value : ℝ

noncomputable def Totals.zero : Totals := ⟨0, 0, 0, 0, 0, 0, 0, 0⟩

noncomputable def Totals.add (a b : Totals) : Totals :=
  ⟨a.delta + b.delta, a.gamma + b.gamma, a.theta + b.theta, a.vega + b.vega,
   a.rho + b.rho, a.vanna + b.vanna, a.volga + b.volga, a.value + b.value⟩

lemma Totals.zero_add (a : Totals) : Totals.add Totals.zero a = a := by
  cases a; simp [Totals.add, Totals.zero]

lemma Totals.add_assoc (a b c : Totals) :
    Totals.add (Totals.add a b) c = Totals.add a (Totals.add b c) := by
  cases a; cases b; cases c; simp [Totals.add]; ring_nf; trivial

/-- One iteration of the position loop in
`PortfolioAnalyzer.calculate_portfolio_greeks`: the (quantity-weighted)
contribution of one leg at the adjusted valuation day.  Legs with
`T <= 0.001` use the intrinsic-value branch; other legs are priced with
`calculate_all_greeks` at `sigma = volatility * volatility_multiplier`. -/
noncomputable def legContrib (r spot : ℝ) (adjustedDay : ℤ) (volMult : ℝ)
    (pos : Position) : Totals :=
  let T := timeToMaturity pos adjustedDay
  if T ≤ 0.001 then
    if pyUpper pos.optionType == "C" then
      { Totals.zero with
        delta := (if pos.strike < spot then 1 else 0) * (pos.quantity : ℝ),
        value := max (spot - pos.strike) 0 * (pos.quantity : ℝ) }
    else
      { Totals.zero with
        delta := (if spot < pos.strike then -1 else 0) * (pos.quantity : ℝ),
        value := max (pos.strike - spot) 0 * (pos.quantity : ℝ) }
  else
    let adjustedVolatility := pos.volatility * volMult
    let g := calculate_all_greeks spot pos.strike T adjustedVolatility pos.optionType r
    { delta := g.delta * (pos.quantity : ℝ), gamma := g.gamma * (pos.quantity : ℝ),
      theta := g.theta * (pos.quantity : ℝ), vega := g.vega * (pos.quantity : ℝ),
      rho := g.rho * (pos.quantity : ℝ), vanna := g.vanna * (pos.quantity : ℝ),
      volga := g.volga * (pos.quantity : ℝ), value := g.price * (pos.quantity : ℝ) }

/-- The accumulation loop of `calculate_portfolio_greeks`. -/
noncomputable def portfolioTotals (r spot : ℝ) (adjustedDay : ℤ) (volMult : ℝ)
    (positions : List Position) : Totals :=
  positions.foldl (fun acc pos => Totals.add acc (legContrib r spot adjustedDay volMult pos))
    Totals.zero

/-- The literal 9-entry dictionary returned by
`calculate_portfolio_greeks` for an empty position list (as in the source, it
has no `vega_percent` entry). -/
noncomputable def emptyGreeksDict : List (String × ℝ) :=
  [("delta", 0), ("gamma", 0), ("theta", 0), ("theta_daily", 0), ("vega", 0),
   ("rho", 0), ("vanna", 0), ("volga", 0), ("position_value", 0)]

/-- The 10-entry dictionary returned by `calculate_portfolio_greeks` for a
non-empty position list, built from the accumulated totals. -/
noncomputable def fullGreeksDict (t : Totals) : List (String × ℝ) :=
  [("delta", t.delta), ("gamma", t.gamma), ("theta", t.theta),
   ("theta_daily", t.theta / 365), ("vega", t.vega), ("vega_percent", t.vega / 100),
   ("rho", t.rho), ("vanna", t.vanna), ("volga", t.volga), ("position_value", t.value)]

/-- Embeds `PortfolioAnalyzer.calculate_portfolio_greeks`, returned as the ordered
key/value dictionary the Python code builds. -/
noncomputable def calculate_portfolio_greeks (r spot : ℝ) (currentDay : ℤ) (volMult : ℝ)
    (timeDaysOffset : ℤ) (positions : List Position) : List (String × ℝ) :=
  match positions with
  | [] => emptyGreeksDict
  | _ :: _ =>
    fullGreeksDict (portfolioTotals r spot (currentDay + timeDaysOffset) volMult positions)

end BSModel

namespace BSModel

/-- C1: Put-call parity.  For every `S>0`, `K>0`, `T>0`, `sigma>0` and rate `r`,
the call price minus the put price returned by `calculate_option_price` equals
`S - K e^(-rT)` within the `1e-6` tolerance (in fact exactly, in the real-number
model). -/
theorem put_call_parity (S K T sigma r : ℝ)
    (hS : 0 < S) (hK : 0 < K) (hT : 0 < T) (hsigma : 0 < sigma) :
    |calculate_option_price S K T sigma "call" r
      - calculate_option_price S K T sigma "put" r
      - (S - K * Real.exp (-r * T))| < 1e-6 := by
  have hcall : isCallType "call" = true := by decide
  have hput : isCallType "put" = false := by decide
  unfold calculate_option_price
  rw [hcall, hput]
  simp only [if_true, if_false, Bool.false_eq_true]
  set d := calculate_d1_d2 S K T sigma r with hd
  have h1 := normCdf_add_normCdf_neg d.1
  have h2 := normCdf_add_normCdf_neg d.2
  have hzero :
      S * normCdf d.1 - K * Real.exp (-r * T) * normCdf d.2
        - (K * Real.exp (-r * T) * normCdf (-d.2) - S * normCdf (-d.1))
        - (S - K * Real.exp (-r * T)) = 0 := by
    have e1 : normCdf (-d.1) = 1 - normCdf d.1 := by linarith
    have e2 : normCdf (-d.2) = 1 - normCdf d.2 := by linarith
    rw [e1, e2]; ring
  rw [hzero]
  norm_num

/-- Witness for `put_call_parity` at `S=K=100`, `T=1`, `sigma=1`, `r=0`. -/
theorem put_call_parity_witness :
    |calculate_option_price 100 100 1 1 "call" 0
      - calculate_option_price 100 100 1 1 "put" 0
      - (100 - 100 * Real.exp (-0 * 1))| < 1e-6 :=
  put_call_parity 100 100 1 1 0 (by norm_num) (by norm_num) (by norm_num) (by norm_num)

/-- C4: the pricing kernel clamps `T` and `sigma` to at least `1e-10` and then
returns `d1 = (log(S/K) + (r + sigma^2/2) T) / (sigma sqrt T)` and
`d2 = d1 - sigma sqrt T` in the clamped variables; the divisor
`sigma sqrt T` is strictly positive for every input, so no division by zero
occurs. -/
theorem d1_d2_clamped (S K T sigma r : ℝ) (hS : 0 < S) (hK : 0 < K) :
    calculate_d1_d2 S K T sigma r =
      ((Real.log (S / K) + (r + (max sigma 1e-10) ^ 2 / 2) * max T 1e-10)
          / (max sigma 1e-10 * Real.sqrt (max T 1e-10)),
       (Real.log (S / K) + (r + (max sigma 1e-10) ^ 2 / 2) * max T 1e-10)
          / (max sigma 1e-10 * Real.sqrt (max T 1e-10))
          - max sigma 1e-10 * Real.sqrt (max T 1e-10))
    ∧ 0 < max sigma 1e-10 * Real.sqrt (max T 1e-10) := by
  constructor
  · rfl
  · have hsig : (0 : ℝ) < max sigma 1e-10 :=
      lt_of_lt_of_le (by norm_num) (le_max_right sigma 1e-10)
    have hT : (0 : ℝ) < max T 1e-10 :=
      lt_of_lt_of_le (by norm_num) (le_max_right T 1e-10)
    exact mul_pos hsig (Real.sqrt_pos.mpr hT)

/-- Witness for `d1_d2_clamped` at `S = K = 1`, `T = 0`, `sigma = 0`, `r = 0`:
the degenerate inputs are clamped and the divisor stays positive. -/
theorem d1_d2_clamped_witness :
    calculate_d1_d2 1 1 0 0 0 =
      ((Real.log (1 / 1) + (0 + (max 0 1e-10) ^ 2 / 2) * max 0 1e-10)
          / (max 0 1e-10 * Real.sqrt (max 0 1e-10)),
       (Real.log (1 / 1) + (0 + (max 0 1e-10) ^ 2 / 2) * max 0 1e-10)
          / (max 0 1e-10 * Real.sqrt (max 0 1e-10))
          - max 0 1e-10 * Real.sqrt (max 0 1e-10))
    ∧ 0 < max (0 : ℝ) 1e-10 * Real.sqrt (max 0 1e-10) :=
  d1_d2_clamped 1 1 0 0 0 (by norm_num) (by norm_num)

lemma Totals.add_zero (a : Totals) : Totals.add a Totals.zero = a := by
  cases a; simp [Totals.add, Totals.zero]

lemma portfolioTotals_foldl (r spot : ℝ) (adjustedDay : ℤ) (volMult : ℝ) :
    ∀ (l : List Position) (init : Totals),
      l.foldl (fun acc pos => Totals.add acc (legContrib r spot adjustedDay volMult pos)) init
        = Totals.add init (portfolioTotals r spot adjustedDay volMult l) := by
  intro l
  induction l with
  | nil => intro init; simp [portfolioTotals, Totals.add_zero]
  | cons p l ih =>
    intro init
    have hl : portfolioTotals r spot adjustedDay volMult (p :: l)
        = Totals.add (legContrib r spot adjustedDay volMult p)
            (portfolioTotals r spot adjustedDay volMult l) := by
      show List.foldl _ _ (p :: l) = _
      rw [List.foldl_cons, ih, Totals.zero_add]
    rw [List.foldl_cons, ih, hl, Totals.add_assoc]

/-- The accumulation loop is additive over list concatenation. -/
lemma portfolioTotals_append (r spot : ℝ) (adjustedDay : ℤ) (volMult : ℝ)
    (A B : List Position) :
    portfolioTotals r spot adjustedDay volMult (A ++ B)
      = Totals.add (portfolioTotals r spot adjustedDay volMult A)
          (portfolioTotals r spot adjustedDay volMult B) := by
  show List.foldl _ _ (A ++ B) = _
  rw [List.foldl_append]
  rw [show List.foldl _ Totals.zero A = portfolioTotals r spot adjustedDay volMult A from rfl]
  exact portfolioTotals_foldl r spot adjustedDay volMult B _

lemma calculate_portfolio_greeks_ne_nil (r spot : ℝ) (currentDay : ℤ) (volMult : ℝ)
    (timeDaysOffset : ℤ) (positions : List Position) (h : positions ≠ []) :
    calculate_portfolio_greeks r spot currentDay volMult timeDaysOffset positions
      = fullGreeksDict
          (portfolioTotals r spot (currentDay + timeDaysOffset) volMult positions) := by
  cases positions with
  | nil => exact absurd rfl h
  | cons p l => rfl

lemma abs_sub_lt_tol {x y z : ℝ} (h : x = y + z) : |x - (y + z)| < 1e-6 := by
  rw [h, sub_self, abs_zero]; norm_num

/-- The ten field names of the non-empty aggregate dictionary. -/
def aggregateKeys : List String :=
  ["delta", "gamma", "theta", "theta_daily", "vega", "vega_percent",
   "rho", "vanna", "volga", "position_value"]

/-- C2 (amended): portfolio aggregation is linear for non-empty position
lists.  For every two non-empty position lists `A`, `B` and every fixed market
state, every field of `calculate_portfolio_greeks` on `A ++ B` equals the sum
of the corresponding fields on `A` and on `B` within the `1e-6` tolerance (the
sums are exact in the real-number model). -/
theorem portfolio_aggregation_linear (r spot : ℝ) (currentDay : ℤ) (volMult : ℝ)
    (timeDaysOffset : ℤ) (A B : List Position) (hA : A ≠ []) (hB : B ≠ []) :
    ∀ k ∈ aggregateKeys, ∃ a b c,
      List.lookup k (calculate_portfolio_greeks r spot currentDay volMult timeDaysOffset A)
        = some a ∧
      List.lookup k (calculate_portfolio_greeks r spot currentDay volMult timeDaysOffset B)
        = some b ∧
      List.lookup k
        (calculate_portfolio_greeks r spot currentDay volMult timeDaysOffset (A ++ B))
        = some c ∧
      |c - (a + b)| < 1e-6 := by
  have hAB : A ++ B ≠ [] := by
    cases A with
    | nil => exact absurd rfl hA
    | cons p l => simp
  have eA := calculate_portfolio_greeks_ne_nil r spot currentDay volMult timeDaysOffset A hA
  have eB := calculate_portfolio_greeks_ne_nil r spot currentDay volMult timeDaysOffset B hB
  have eAB := calculate_portfolio_greeks_ne_nil r spot currentDay volMult timeDaysOffset
    (A ++ B) hAB
  rw [portfolioTotals_append] at eAB
  set tA := portfolioTotals r spot (currentDay + timeDaysOffset) volMult A with htA
  set tB := portfolioTotals r spot (currentDay + timeDaysOffset) volMult B with htB
  intro k hk
  fin_cases hk
  · exact ⟨tA.delta, tB.delta, _, by rw [eA]; rfl, by rw [eB]; rfl, by rw [eAB]; rfl,
      abs_sub_lt_tol (by simp [Totals.add])⟩
  · exact ⟨tA.gamma, tB.gamma, _, by rw [eA]; rfl, by rw [eB]; rfl, by rw [eAB]; rfl,
      abs_sub_lt_tol (by simp [Totals.add])⟩
  · exact ⟨tA.theta, tB.theta, _, by rw [eA]; rfl, by rw [eB]; rfl, by rw [eAB]; rfl,
      abs_sub_lt_tol (by simp [Totals.add])⟩
  · exact ⟨tA.theta / 365, tB.theta / 365, _, by rw [eA]; rfl, by rw [eB]; rfl,
      by rw [eAB]; rfl, abs_sub_lt_tol (by simp [Totals.add]; ring)⟩
  · exact ⟨tA.vega, tB.vega, _, by rw [eA]; rfl, by rw [eB]; rfl, by rw [eAB]; rfl,
      abs_sub_lt_tol (by simp [Totals.add])⟩
  · exact ⟨tA.vega / 100, tB.vega / 100, _, by rw [eA]; rfl, by rw [eB]; rfl,
      by rw [eAB]; rfl, abs_sub_lt_tol (by simp [Totals.add]; ring)⟩
  · exact ⟨tA.rho, tB.rho, _, by rw [eA]; rfl, by rw [eB]; rfl, by rw [eAB]; rfl,
      abs_sub_lt_tol (by simp [Totals.add])⟩
  · exact ⟨tA.vanna, tB.vanna, _, by rw [eA]; rfl, by rw [eB]; rfl, by rw [eAB]; rfl,
      abs_sub_lt_tol (by simp [Totals.add])⟩
  · exact ⟨tA.volga, tB.volga, _, by rw [eA]; rfl, by rw [eB]; rfl, by rw [eAB]; rfl,
      abs_sub_lt_tol (by simp [Totals.add])⟩
  · exact ⟨tA.value, tB.value, _, by rw [eA]; rfl, by rw [eB]; rfl, by rw [eAB]; rfl,
      abs_sub_lt_tol (by simp [Totals.add])⟩

/-- A sample expired long call used in concrete instances. -/
noncomputable def samplePos : Position :=
  { expirationDay := 0, strike := 3000, optionType := "C", quantity := 1,
    volatility := 1, entryPrice := none }

/-- Witness for `portfolio_aggregation_linear` with the single-leg lists
`[samplePos]` and `[samplePos]` and the field `delta`. -/
theorem portfolio_aggregation_linear_witness :
    ∃ a b c,
      List.lookup "delta" (calculate_portfolio_greeks 0.05 3000 0 1 0 [samplePos]) = some a ∧
      List.lookup "delta" (calculate_portfolio_greeks 0.05 3000 0 1 0 [samplePos]) = some b ∧
      List.lookup "delta"
        (calculate_portfolio_greeks 0.05 3000 0 1 0 ([samplePos] ++ [samplePos])) = some c ∧
      |c - (a + b)| < 1e-6 :=
  portfolio_aggregation_linear 0.05 3000 0 1 0 [samplePos] [samplePos]
    (by simp) (by simp) "delta" (by simp [aggregateKeys])

/-- Counterexample to C2 as stated: with `A = []` (and any non-empty `B`)
the aggregation identity fails for the field `vega_percent`, because the
empty-portfolio dictionary has no `vega_percent` entry at all. -/
theorem portfolio_aggregation_linear_cex :
    ¬ (∀ k ∈ aggregateKeys, ∃ a b c,
        List.lookup k (calculate_portfolio_greeks 0.05 3000 0 1 0 ([] : List Position))
          = some a ∧
        List.lookup k (calculate_portfolio_greeks 0.05 3000 0 1 0 [samplePos]) = some b ∧
        List.lookup k (calculate_portfolio_greeks 0.05 3000 0 1 0 ([] ++ [samplePos]))
          = some c ∧
        |c - (a + b)| < 1e-6) := by
  intro h
  obtain ⟨a, b, c, ha, hb, hc, habs⟩ := h "vega_percent" (by simp [aggregateKeys])
  have hnone :
      List.lookup "vega_percent" (calculate_portfolio_greeks 0.05 3000 0 1 0
        ([] : List Position)) = none := rfl
  rw [hnone] at ha
  exact Option.noConfusion ha

/-- C3: a leg whose remaining time to maturity at the offset-adjusted
valuation date is at or below the `0.001`-year threshold contributes through
the intrinsic-value branch: per unit, its value is `max(S-K,0)` for a Call and
`max(K-S,0)` for a Put, its delta is `1` (Call, `S>K`), `-1` (Put, `S<K`) or
`0` otherwise, and its gamma, theta, vega, rho, vanna and volga are exactly
`0`; `calculate_portfolio_greeks` builds its output from exactly these
contributions. -/
theorem near_expiry_intrinsic_branch (r spot : ℝ) (adjustedDay : ℤ) (volMult : ℝ)
    (pos : Position) (hT : timeToMaturity pos adjustedDay ≤ 0.001) :
    legContrib r spot adjustedDay volMult pos =
      { delta :=
          (if pyUpper pos.optionType == "C" then (if pos.strike < spot then 1 else 0)
           else (if spot < pos.strike then -1 else 0)) * (pos.quantity : ℝ),
        gamma := 0, theta := 0, vega := 0, rho := 0, vanna := 0, volga := 0,
        value :=
          (if pyUpper pos.optionType == "C" then max (spot - pos.strike) 0
           else max (pos.strike - spot) 0) * (pos.quantity : ℝ) } ∧
    calculate_portfolio_greeks r spot adjustedDay volMult 0 [pos]
      = fullGreeksDict (legContrib r spot adjustedDay volMult pos) := by
  constructor
  · unfold legContrib
    rw [if_pos hT]
    cases h : pyUpper pos.optionType == "C" <;> simp [h, Totals.zero]
  · rw [calculate_portfolio_greeks_ne_nil _ _ _ _ _ _ (by simp)]
    have : portfolioTotals r spot (adjustedDay + 0) volMult [pos]
        = legContrib r spot (adjustedDay + 0) volMult pos := by
      show Totals.add Totals.zero _ = _
      rw [Totals.zero_add]
    rw [this, add_zero]

/-- Witness for `near_expiry_intrinsic_branch`: an expired in-the-money call
(`samplePos` expires on day 0, valued on day 0 at spot 3500). -/
theorem near_expiry_intrinsic_branch_witness :
    legContrib 0.05 3500 0 1 samplePos =
      { delta :=
          (if pyUpper samplePos.optionType == "C"
           then (if samplePos.strike < 3500 then 1 else 0)
           else (if 3500 < samplePos.strike then -1 else 0)) * (samplePos.quantity : ℝ),
        gamma := 0, theta := 0, vega := 0, rho := 0, vanna := 0, volga := 0,
        value :=
          (if pyUpper samplePos.optionType == "C" then max (3500 - samplePos.strike) 0
           else max (samplePos.strike - 3500) 0) * (samplePos.quantity : ℝ) } ∧
    calculate_portfolio_greeks 0.05 3500 0 1 0 [samplePos]
      = fullGreeksDict (legContrib 0.05 3500 0 1 samplePos) :=
  near_expiry_intrinsic_branch 0.05 3500 0 1 samplePos
    (by norm_num [timeToMaturity, daysToExpiry, samplePos])

/-- C5: evaluating `calculate_portfolio_greeks` on the empty position list.
The nine returned fields are all zero, but the dictionary has no
`vega_percent` entry, although `vega_percent` is part of the fixed output
schema returned for non-empty portfolios — the claimed fixed schema is
violated by the code. -/
theorem empty_portfolio_aggregate :
    calculate_portfolio_greeks 0.05 3000 0 1 0 [] = emptyGreeksDict ∧
    List.lookup "vega_percent" (calculate_portfolio_greeks 0.05 3000 0 1 0 []) = none ∧
    List.lookup "delta" (calculate_portfolio_greeks 0.05 3000 0 1 0 []) = some 0 ∧
    List.lookup "gamma" (calculate_portfolio_greeks 0.05 3000 0 1 0 []) = some 0 ∧
    List.lookup "theta" (calculate_portfolio_greeks 0.05 3000 0 1 0 []) = some 0 ∧
    List.lookup "theta_daily" (calculate_portfolio_greeks 0.05 3000 0 1 0 []) = some 0 ∧
    List.lookup "vega" (calculate_portfolio_greeks 0.05 3000 0 1 0 []) = some 0 ∧
    List.lookup "rho" (calculate_portfolio_greeks 0.05 3000 0 1 0 []) = some 0 ∧
    List.lookup "vanna" (calculate_portfolio_greeks 0.05 3000 0 1 0 []) = some 0 ∧
    List.lookup "volga" (calculate_portfolio_greeks 0.05 3000 0 1 0 []) = some 0 ∧
    List.lookup "position_value" (calculate_portfolio_greeks 0.05 3000 0 1 0 [])
      = some 0 := by
  refine ⟨rfl, rfl, rfl, rfl, rfl, rfl, rfl, rfl, rfl, rfl, rfl⟩

/-- Embeds `np.linspace(a, b, n)`: `n` evenly spaced points from `a` to `b`. -/
noncomputable def linspace (a b : ℝ) (n : ℕ) : List ℝ :=
  (List.range n).map (fun (i : ℕ) => a + (i : ℝ) * (b - a) / ((n : ℝ) - 1))

lemma linspace_succ (a b : ℝ) (n : ℕ) :
    linspace a b (n + 1)
      = a :: (List.range n).map
          (fun (i : ℕ) => a + ((i : ℝ) + 1) * (b - a) / ((((n : ℕ) + 1 : ℕ) : ℝ) - 1)) := by
  simp only [linspace, List.range_succ_eq_map, List.map_cons, List.map_map]
  congr 1
  · simp
  · apply List.map_congr_left
    intro i _
    simp only [Function.comp_apply]
    push_cast
    ring

lemma linspace_mem_lower {a b : ℝ} (hab : a ≤ b) (n : ℕ) :
    ∀ y ∈ linspace a b n, a ≤ y := by
  intro y hy
  simp only [linspace, List.mem_map, List.mem_range] at hy
  obtain ⟨i, hi, rfl⟩ := hy
  have hnum : (0 : ℝ) ≤ (i : ℝ) * (b - a) :=
    mul_nonneg (Nat.cast_nonneg i) (by linarith)
  rcases Nat.eq_zero_or_pos n with h0 | hpos
  · subst h0; exact absurd hi (by omega)
  · rcases Nat.lt_or_ge n 2 with h1 | h2
    · have hn1 : n = 1 := by omega
      subst hn1
      simp
    · have hden : (0 : ℝ) < (n : ℝ) - 1 := by
        have : (2 : ℝ) ≤ (n : ℝ) := by exact_mod_cast h2
        linarith
      have := div_nonneg hnum hden.le
      linarith

/-- The per-iteration in-place mutation of the stored positions inside
`volatility_sensitivity_analysis`:
`pos.volatility = max(original_vols[i] * (1 + iv_change), 0.01)`. -/
noncomputable def setVols (state : List Position) (originalVols : List ℝ)
    (ivChange : ℝ) : List Position :=
  (state.zip originalVols).map
    (fun q => { q.1 with volatility := max (q.2 * (1 + ivChange)) 0.01 })

/-- The final restore loop of `volatility_sensitivity_analysis`:
`pos.volatility = original_vols[i]`. -/
noncomputable def restoreVols (state : List Position) (originalVols : List ℝ) :
    List Position :=
  (state.zip originalVols).map (fun q => { q.1 with volatility := q.2 })

/-- The sweep loop of `volatility_sensitivity_analysis`, in state-passing
form.  Returns the collected results, the trace of the stored position list
as it stands during each iteration (after the in-place mutation), and the
stored position list as the loop leaves it. -/
noncomputable def volSensLoop (r spot : ℝ) (currentDay : ℤ) (originalVols : List ℝ) :
    List Position → List ℝ
      → List (ℝ × List (String × ℝ)) × List (List Position) × List Position
  | state, [] => ([], [], state)
  | state, c :: rest =>
    let state' := setVols state originalVols c
    let next := volSensLoop r spot currentDay originalVols state' rest
    ((c * 100, calculate_portfolio_greeks r spot currentDay 1 0 state') :: next.1,
     state' :: next.2.1, next.2.2)

/-- Embeds `PortfolioAnalyzer.volatility_sensitivity_analysis`: sweeps
`iv_change` over `linspace(ivMin, ivMax, numPoints)`, mutating every stored
position's volatility in place before each aggregation and restoring the
original volatilities after the loop.  Returned: the result rows, the trace
of stored states during the sweep, and the final stored position list. -/
noncomputable def volatility_sensitivity_analysis (r spot : ℝ) (currentDay : ℤ)
    (ivMin ivMax : ℝ) (numPoints : ℕ) (positions : List Position) :
    List (ℝ × List (String × ℝ)) × List (List Position) × List Position :=
  match positions with
  | [] => ([], [], positions)
  | _ :: _ =>
    let originalVols := positions.map (fun p => p.volatility)
    let loop := volSensLoop r spot currentDay originalVols positions
      (linspace ivMin ivMax numPoints)
    (loop.1, loop.2.1, restoreVols loop.2.2 originalVols)

lemma restoreVols_setVols (c : ℝ) :
    ∀ (state : List Position) (ov : List ℝ),
      restoreVols (setVols state ov c) ov = restoreVols state ov := by
  intro state
  induction state with
  | nil => intro ov; rfl
  | cons p l ih =>
    intro ov
    cases ov with
    | nil => rfl
    | cons v vs => simp [restoreVols, setVols] at ih ⊢; exact ih vs

lemma volSensLoop_restore (r spot : ℝ) (currentDay : ℤ) (ov : List ℝ) :
    ∀ (ivs : List ℝ) (state : List Position),
      restoreVols (volSensLoop r spot currentDay ov state ivs).2.2 ov
        = restoreVols state ov := by
  intro ivs
  induction ivs with
  | nil => intro state; rfl
  | cons c rest ih =>
    intro state
    show restoreVols (volSensLoop r spot currentDay ov (setVols state ov c) rest).2.2 ov = _
    rw [ih, restoreVols_setVols]

lemma restoreVols_self : ∀ (ps : List Position),
    restoreVols ps (ps.map (fun p => p.volatility)) = ps := by
  intro ps
  induction ps with
  | nil => rfl
  | cons p l ih => simp [restoreVols] at ih ⊢; exact ih

/-- C6 (amended): `volatility_sensitivity_analysis` leaves the stored per-leg
volatilities unchanged after the call — the final stored position list equals
the original one for every input, because the loop's in-place mutation is
followed by a restore of the saved original volatilities. -/
theorem vol_sensitivity_restores_positions (r spot : ℝ) (currentDay : ℤ)
    (ivMin ivMax : ℝ) (numPoints : ℕ) (positions : List Position) :
    (volatility_sensitivity_analysis r spot currentDay ivMin ivMax numPoints positions).2.2
      = positions := by
  cases positions with
  | nil => rfl
  | cons p l =>
    show restoreVols (volSensLoop _ _ _ _ _ _).2.2 _ = _
    rw [volSensLoop_restore, restoreVols_self]

/-- Counterexample to C6 as stated: during the sweep the stored position list
is temporarily mutated.  With one stored leg of volatility `1.0` and the
default sweep `linspace(-0.5, 0.5, 50)`, the stored state during the first
iteration carries volatility `0.5`, not `1.0`: it differs from the stored
list before the call, so a temporary mutate-then-restore does occur. -/
theorem vol_sensitivity_mutates_cex :
    ¬ (∀ st ∈ (volatility_sensitivity_analysis 0.05 3000 0 (-0.5) 0.5 50
          [samplePos]).2.1, st = [samplePos]) := by
  intro h
  have h50 : linspace (-0.5 : ℝ) 0.5 50
      = (-0.5 : ℝ) :: (List.range 49).map
          (fun i => (-0.5 : ℝ) + ((i : ℝ) + 1) * (0.5 - (-0.5)) / (((49 : ℕ) : ℝ) + 1 - 1)) := by
    have := linspace_succ (-0.5 : ℝ) 0.5 49
    norm_num at this ⊢
    exact this
  have hmem : setVols [samplePos] ([samplePos].map (fun p => p.volatility)) (-0.5)
      ∈ (volatility_sensitivity_analysis 0.05 3000 0 (-0.5) 0.5 50 [samplePos]).2.1 := by
    show _ ∈ (volSensLoop 0.05 3000 0 ([samplePos].map (fun p => p.volatility)) [samplePos]
      (linspace (-0.5) 0.5 50)).2.1
    rw [h50]
    exact List.mem_cons_self _ _
  have heq := h _ hmem
  have hvol : (setVols [samplePos] ([samplePos].map (fun p => p.volatility)) (-0.5)).map
      (fun p => p.volatility) = [samplePos].map (fun p => p.volatility) := by
    rw [heq]
  simp [setVols, samplePos] at hvol
  norm_num at hvol

/-- Embeds `PortfolioAnalyzer.calculate_cost_basis`: sums `entry_price * quantity`;
a missing entry price falls back to the Black-Scholes price at the reference
spot (or to intrinsic value for an already-expired leg). -/
noncomputable def calculate_cost_basis (r : ℝ) (todayDay : ℤ) (currentSpot : ℝ)
    (positions : List Position) : ℝ :=
  positions.foldl (fun acc pos =>
    let entry :=
      match pos.entryPrice with
      | some e => e
      | none =>
        let T := timeToMaturity pos todayDay
        if 0 < T then
          calculate_option_price currentSpot pos.strike T pos.volatility
            (pyLower pos.optionType) r
        else if pyUpper pos.optionType == "C" then max (currentSpot - pos.strike) 0
        else max (pos.strike - currentSpot) 0
    acc + entry * (pos.quantity : ℝ)) 0

/-- The inner accumulation of `calculate_max_loss_at_expiration`: the
portfolio's intrinsic value at expiration for one spot price. -/
noncomputable def intrinsicPortfolioValue (positions : List Position) (spot : ℝ) : ℝ :=
  positions.foldl (fun acc pos =>
    acc + (if pyUpper pos.optionType == "C" then max (spot - pos.strike) 0
           else max (pos.strike - spot) 0) * (pos.quantity : ℝ)) 0

/-- Embeds `PortfolioAnalyzer.calculate_max_loss_at_expiration`.  `none` models the
`ValueError` Python's `min` raises when the sampled grid is empty. -/
noncomputable def calculate_max_loss_at_expiration (r : ℝ) (todayDay : ℤ)
    (currentSpot : ℝ) (spotMin spotMax : Option ℝ) (numPoints : ℕ)
    (costBasis : Option ℝ) (positions : List Position) : Option ℝ :=
  match positions with
  | [] => some 0
  | _ :: _ =>
    let cb :=
      match costBasis with
      | some c => c
      | none => calculate_cost_basis r todayDay currentSpot positions
    let lo := spotMin.getD (currentSpot * 0.1)
    let hi := spotMax.getD (currentSpot * 3.0)
    match (linspace lo hi numPoints).map (intrinsicPortfolioValue positions) with
    | [] => none
    | v :: vs => some (vs.foldl min v - cb)

lemma foldl_min_head : ∀ (xs : List ℝ) (x : ℝ), (∀ y ∈ xs, x ≤ y) → xs.foldl min x = x := by
  intro xs
  induction xs with
  | nil => intro x _; rfl
  | cons y ys ih =>
    intro x hx
    rw [List.foldl_cons, min_eq_left (hx y (List.mem_cons_self y ys))]
    exact ih x (fun z hz => hx z (List.mem_cons_of_mem y hz))

lemma intrinsic_single_call (pos : Position) (hq : pos.quantity = 1)
    (hC : pyUpper pos.optionType = "C") (s : ℝ) :
    intrinsicPortfolioValue [pos] s = max (s - pos.strike) 0 := by
  simp [intrinsicPortfolioValue, hq, hC]

/-- Shared evaluation: for a portfolio consisting of one long call, the
default-argument max loss is `max(0.1 S - K, 0) - cost_basis` (the sampled
grid is increasing, the intrinsic value of a long call is non-decreasing in
the spot, so the minimum is attained at the left endpoint `0.1 S`). -/
lemma max_loss_single_call_eval (r : ℝ) (today : ℤ) (S : ℝ) (pos : Position)
    (hS : 0 < S) (hq : pos.quantity = 1) (hC : pyUpper pos.optionType = "C") :
    calculate_max_loss_at_expiration r today S none none 200 none [pos]
      = some (max (S * 0.1 - pos.strike) 0
          - calculate_cost_basis r today S [pos]) := by
  have hab : S * 0.1 ≤ S * 3.0 := by nlinarith
  have hgrid : ∃ rest, linspace (S * 0.1) (S * 3.0) 200 = (S * 0.1) :: rest ∧
      ∀ y ∈ rest, S * 0.1 ≤ y := by
    refine ⟨_, linspace_succ (S * 0.1) (S * 3.0) 199, ?_⟩
    intro y hy
    have : y ∈ linspace (S * 0.1) (S * 3.0) 200 := by
      rw [linspace_succ (S * 0.1) (S * 3.0) 199]
      exact List.mem_cons_of_mem _ hy
    exact linspace_mem_lower hab 200 y this
  obtain ⟨rest, hcons, hrest⟩ := hgrid
  have hval : calculate_max_loss_at_expiration r today S none none 200 none [pos]
      = some ((rest.map (intrinsicPortfolioValue [pos])).foldl min
          (intrinsicPortfolioValue [pos] (S * 0.1))
            - calculate_cost_basis r today S [pos]) := by
    show (match (linspace (S * 0.1) (S * 3.0) 200).map (intrinsicPortfolioValue [pos]) with
      | [] => none
      | v :: vs => some (vs.foldl min v - calculate_cost_basis r today S [pos])) = _
    rw [hcons]
    rfl
  have hmin : (rest.map (intrinsicPortfolioValue [pos])).foldl min
      (intrinsicPortfolioValue [pos] (S * 0.1))
        = intrinsicPortfolioValue [pos] (S * 0.1) := by
    apply foldl_min_head
    intro y hy
    obtain ⟨z, hz, rfl⟩ := List.mem_map.mp hy
    rw [intrinsic_single_call pos hq hC, intrinsic_single_call pos hq hC]
    exact max_le_max (by linarith [hrest z hz]) le_rfl
  rw [hval, hmin, intrinsic_single_call pos hq hC]

/-- C7 (amended): for a portfolio of exactly one long call whose strike is at
least `0.1` times the current spot (so the default sampled range
`[0.1 S, 3 S]` reaches the strike), `calculate_max_loss_at_expiration` with
default arguments equals minus the portfolio's cost basis. -/
theorem max_loss_single_long_call (r : ℝ) (today : ℤ) (S : ℝ) (pos : Position)
    (hS : 0 < S) (hq : pos.quantity = 1) (hC : pyUpper pos.optionType = "C")
    (hK : S * 0.1 ≤ pos.strike) :
    calculate_max_loss_at_expiration r today S none none 200 none [pos]
      = some (-(calculate_cost_basis r today S [pos])) := by
  rw [max_loss_single_call_eval r today S pos hS hq hC]
  rw [max_eq_right (by linarith)]
  norm_num

/-- A long call whose strike lies below the default sampled range. -/
noncomputable def lowStrikePos : Position :=
  { expirationDay := 100, strike := 100, optionType := "C", quantity := 1,
    volatility := 1, entryPrice := some 10 }

/-- Witness for `max_loss_single_long_call`: one long call at strike 3000,
spot 3000, entry price 10. -/
noncomputable def atmCallPos : Position :=
  { expirationDay := 100, strike := 3000, optionType := "C", quantity := 1,
    volatility := 1, entryPrice := some 10 }

theorem max_loss_single_long_call_witness :
    calculate_max_loss_at_expiration 0.05 0 3000 none none 200 none [atmCallPos]
      = some (-(calculate_cost_basis 0.05 0 3000 [atmCallPos])) :=
  max_loss_single_long_call 0.05 0 3000 atmCallPos (by norm_num) rfl rfl
    (by norm_num [atmCallPos])

/-- Counterexample to C7 as stated: a single long call with strike 100 and
entry price 10 at spot 3000.  The default grid starts at `0.1 * 3000 = 300`,
every sampled intrinsic value is at least `300 - 100 = 200`, so the returned
max loss is `200 - 10 = 190`, not `-cost_basis = -10`. -/
theorem max_loss_single_long_call_cex :
    calculate_max_loss_at_expiration 0.05 0 3000 none none 200 none [lowStrikePos]
      ≠ some (-(calculate_cost_basis 0.05 0 3000 [lowStrikePos])) := by
  have hcb : calculate_cost_basis 0.05 0 3000 [lowStrikePos] = 10 := by
    simp [calculate_cost_basis, lowStrikePos]
  rw [max_loss_single_call_eval 0.05 0 3000 lowStrikePos (by norm_num) rfl rfl, hcb]
  rw [show lowStrikePos.strike = 100 from rfl]
  rw [max_eq_left (by norm_num)]
  intro h
  have := Option.some.injEq _ _ ▸ h
  norm_num at h

/-- Python `round` on the ATM-strike computation: round half to even. -/
noncomputable def pythonRound (x : ℝ) : ℤ :=
  if Int.fract x < 1 / 2 then ⌊x⌋
  else if 1 / 2 < Int.fract x then ⌊x⌋ + 1
  else if Even ⌊x⌋ then ⌊x⌋ else ⌊x⌋ + 1

/-- The names of the nine built-in strategy templates, in dictionary order. -/
def templateNames : List String :=
  ["long_straddle", "short_straddle", "long_strangle", "short_strangle",
   "bull_call_spread", "bear_put_spread", "iron_condor", "butterfly",
   "call_calendar_spread"]

/-- The Python rendering of `list(templates.keys())` used in the error
message (`\x27` is the ASCII apostrophe). -/
def validTemplatesStr : String :=
  "[\x27long_straddle\x27, \x27short_straddle\x27, \x27long_strangle\x27, \x27short_strangle\x27, \x27bull_call_spread\x27, \x27bear_put_spread\x27, \x27iron_condor\x27, \x27butterfly\x27, \x27call_calendar_spread\x27]"

/-- The `(strike, option_type, quantity)` recipes of the strategy template
dictionary, keyed off the ATM strike. -/
noncomputable def templateLegs (atm : ℝ) (name : String) :
    Option (List (ℝ × String × ℤ)) :=
  if name = "long_straddle" then some [(atm, "C", 1), (atm, "P", 1)]
  else if name = "short_straddle" then some [(atm, "C", -1), (atm, "P", -1)]
  else if name = "long_strangle" then some [(atm + 200, "C", 1), (atm - 200, "P", 1)]
  else if name = "short_strangle" then some [(atm + 200, "C", -1), (atm - 200, "P", -1)]
  else if name = "bull_call_spread" then some [(atm - 100, "C", 1), (atm + 100, "C", -1)]
  else if name = "bear_put_spread" then some [(atm + 100, "P", 1), (atm - 100, "P", -1)]
  else if name = "iron_condor" then
    some [(atm - 300, "P", 1), (atm - 100, "P", -1), (atm + 100, "C", -1), (atm + 300, "C", 1)]
  else if name = "butterfly" then
    some [(atm - 200, "C", 1), (atm, "C", -2), (atm + 200, "C", 1)]
  else if name = "call_calendar_spread" then some [(atm, "C", -1), (atm, "C", 1)]
  else none

/-- Embeds `PortfolioAnalyzer.load_strategy_template`.  The portfolio is cleared
first; on success the new position list replaces it, an unknown name raises
`ValueError` with a message naming the bad identifier and the valid template
identifiers (modelled as the `Except.error` string). -/
noncomputable def load_strategy_template (r : ℝ) (todayDay : ℤ) (name : String)
    (currentSpot : ℝ) : Except String (List Position) :=
  let atm := (pythonRound (currentSpot / 100) : ℝ) * 100
  match templateLegs atm name with
  | none => .error ("未知策略: " ++ name ++ ". 可用策略: " ++ validTemplatesStr)
  | some legs =>
    .ok (legs.map (fun leg =>
      let T := ((todayDay + 30 - todayDay : ℤ) : ℝ) / 365
      let entry :=
        if 0 < T then calculate_option_price currentSpot leg.1 T 1 (pyLower leg.2.1) r
        else 0
      mkPosition (todayDay + 30) leg.1 leg.2.1 leg.2.2 (some 1) (some entry)))

lemma strDataAppend : ∀ a b : String, (a ++ b).data = a.data ++ b.data
  | ⟨_⟩, ⟨_⟩ => rfl

lemma exists_split_of_contains {t s : String} (h : t.data <:+: s.data) :
    ∃ u v : String, s = u ++ t ++ v := by
  obtain ⟨l₁, l₂, hl⟩ := h
  refine ⟨⟨l₁⟩, ⟨l₂⟩, ?_⟩
  cases s with
  | mk sdata =>
    cases t with
    | mk tdata =>
      exact congrArg String.mk hl.symm

lemma templateLegs_eq_none {atm : ℝ} {name : String} (h : name ∉ templateNames) :
    templateLegs atm name = none := by
  simp only [templateNames, List.mem_cons, List.not_mem_nil, or_false] at h
  push_neg at h
  obtain ⟨h1, h2, h3, h4, h5, h6, h7, h8, h9⟩ := h
  simp [templateLegs, h1, h2, h3, h4, h5, h6, h7, h8, h9]

set_option maxRecDepth 20000 in
/-- C8: `load_strategy_template("long_straddle", S)` produces exactly two
positions, both with quantity `+1` and both struck at the same ATM strike
(the spot rounded to the nearest 100, ties to even as in Python `round`);
and every name outside the template set fails with an error whose message
names the bad identifier and every valid template identifier. -/
theorem strategy_template_loader (r : ℝ) (today : ℤ) (S : ℝ) :
    ((load_strategy_template r today "long_straddle" S).toOption.map
        (fun l => l.map (fun p => (p.quantity, p.strike))))
      = some [(1, (pythonRound (S / 100) : ℝ) * 100),
              (1, (pythonRound (S / 100) : ℝ) * 100)] ∧
    (∀ name, name ∉ templateNames →
      ∃ e, load_strategy_template r today name S = .error e ∧
        (∃ u v, e = u ++ name ++ v) ∧
        (∀ t ∈ templateNames, ∃ u v, e = u ++ t ++ v)) := by
  constructor
  · simp [load_strategy_template, templateLegs, mkPosition, Except.toOption]
  · intro name hname
    refine ⟨"未知策略: " ++ name ++ ". 可用策略: " ++ validTemplatesStr, ?_, ?_, ?_⟩
    · simp only [load_strategy_template, templateLegs_eq_none hname]
    · refine exists_split_of_contains ?_
      refine ⟨"未知策略: ".data, (". 可用策略: " ++ validTemplatesStr).data, ?_⟩
      simp [strDataAppend]
    · intro t ht
      refine exists_split_of_contains ?_
      have hin : t.data <:+: validTemplatesStr.data := by
        fin_cases ht <;> decide
      have hsuf : validTemplatesStr.data
          <:+: ("未知策略: " ++ name ++ ". 可用策略: " ++ validTemplatesStr).data := by
        refine ⟨("未知策略: " ++ name ++ ". 可用策略: ").data, [], ?_⟩
        simp [strDataAppend]
      exact hin.trans hsuf

/-- Witness for `strategy_template_loader` at `S = 3000`, unknown name
`"foo"`. -/
theorem strategy_template_loader_witness :
    ((load_strategy_template 0.05 0 "long_straddle" 3000).toOption.map
        (fun l => l.map (fun p => (p.quantity, p.strike))))
      = some [(1, (pythonRound ((3000 : ℝ) / 100) : ℝ) * 100),
              (1, (pythonRound ((3000 : ℝ) / 100) : ℝ) * 100)] ∧
    (∃ e, load_strategy_template 0.05 0 "foo" 3000 = .error e ∧
      (∃ u v, e = u ++ "foo" ++ v) ∧
      (∀ t ∈ templateNames, ∃ u v, e = u ++ t ++ v)) :=
  ⟨(strategy_template_loader 0.05 0 3000).1,
   (strategy_template_loader 0.05 0 3000).2 "foo" (by decide)⟩

/-- C9: every option-type string whose Python-lowercased form is not
`"call"` and whose uppercased form is not `"C"` is silently priced with the
Put formulas by `calculate_option_price`, `calculate_delta`,
`calculate_theta` and `calculate_rho` (no option-type value is ever
rejected: the functions are total). -/
theorem non_call_option_type_priced_as_put (S K T sigma r : ℝ) (ot : String)
    (hlow : pyLower ot ≠ "call") (hup : pyUpper ot ≠ "C") :
    calculate_option_price S K T sigma ot r
      = K * Real.exp (-r * T) * normCdf (-(calculate_d1_d2 S K T sigma r).2)
        - S * normCdf (-(calculate_d1_d2 S K T sigma r).1) ∧
    calculate_delta S K T sigma ot r = normCdf ((calculate_d1_d2 S K T sigma r).1) - 1 ∧
    calculate_theta S K T sigma ot r
      = -S * normPdf ((calculate_d1_d2 S K T sigma r).1) * sigma
            / (2 * Real.sqrt (max T 1e-10))
        + r * K * Real.exp (-r * max T 1e-10)
            * normCdf (-(calculate_d1_d2 S K T sigma r).2) ∧
    calculate_rho S K T sigma ot r
      = -K * max T 1e-10 * Real.exp (-r * max T 1e-10)
          * normCdf (-(calculate_d1_d2 S K T sigma r).2) := by
  have hfalse : isCallType ot = false := by
    simp [isCallType, hlow, hup]
  refine ⟨?_, ?_, ?_, ?_⟩
  · unfold calculate_option_price
    rw [hfalse]
    simp
  · unfold calculate_delta
    rw [hfalse]
    simp
  · unfold calculate_theta
    rw [hfalse]
    simp
  · unfold calculate_rho
    rw [hfalse]
    simp

/-- Witness for `non_call_option_type_priced_as_put` at the stored-position
type string `"P"` and `S=K=3000`, `T=1`, `sigma=1`, `r=0.05`. -/
theorem non_call_option_type_priced_as_put_witness :
    calculate_option_price 3000 3000 1 1 "P" 0.05
      = 3000 * Real.exp (-0.05 * 1) * normCdf (-(calculate_d1_d2 3000 3000 1 1 0.05).2)
        - 3000 * normCdf (-(calculate_d1_d2 3000 3000 1 1 0.05).1) ∧
    calculate_delta 3000 3000 1 1 "P" 0.05
      = normCdf ((calculate_d1_d2 3000 3000 1 1 0.05).1) - 1 ∧
    calculate_theta 3000 3000 1 1 "P" 0.05
      = -3000 * normPdf ((calculate_d1_d2 3000 3000 1 1 0.05).1) * 1
            / (2 * Real.sqrt (max 1 1e-10))
        + 0.05 * 3000 * Real.exp (-0.05 * max 1 1e-10)
            * normCdf (-(calculate_d1_d2 3000 3000 1 1 0.05).2) ∧
    calculate_rho 3000 3000 1 1 "P" 0.05
      = -3000 * max 1 1e-10 * Real.exp (-0.05 * max 1 1e-10)
          * normCdf (-(calculate_d1_d2 3000 3000 1 1 0.05).2) :=
  non_call_option_type_priced_as_put 3000 3000 1 1 0.05 "P" (by decide) (by decide)

/-- Embeds `PortfolioAnalyzer.remove_position`: guarded by
`if 0 <= index < len(self.positions)`, otherwise a no-op. -/
def remove_position (positions : List Position) (index : ℤ) : List Position :=
  if 0 ≤ index ∧ index < positions.length then positions.eraseIdx index.toNat
  else positions

/-- C10: `remove_position` is a no-op for every index outside
`[0, len(positions))` (it neither raises nor changes the list), and for an
index inside the range it removes exactly the position at that index,
leaving all other positions unchanged in order. -/
theorem remove_position_spec (positions : List Position) (index : ℤ) :
    (¬ (0 ≤ index ∧ index < positions.length) →
      remove_position positions index = positions) ∧
    (0 ≤ index → index < positions.length →
      remove_position positions index
        = positions.take index.toNat ++ positions.drop (index.toNat + 1)) := by
  constructor
  · intro h
    unfold remove_position
    rw [if_neg h]
  · intro h1 h2
    unfold remove_position
    rw [if_pos ⟨h1, h2⟩]
    exact List.eraseIdx_eq_take_drop_succ positions index.toNat

/-- Witness for `remove_position_spec`: on a two-position list, index `5` is
a no-op and index `1` removes exactly the second position. -/
theorem remove_position_spec_witness :
    remove_position [samplePos, lowStrikePos] 5 = [samplePos, lowStrikePos] ∧
    remove_position [samplePos, lowStrikePos] 1 = [samplePos] := by
  constructor
  · exact (remove_position_spec [samplePos, lowStrikePos] 5).1 (by norm_num)
  · have h := (remove_position_spec [samplePos, lowStrikePos] 1).2 (by norm_num) (by norm_num)
    simpa using h

end BSModel
